import Mathlib

/-!
Shallow embedding of the Mergington High School activities API
(`src/app.py`): the in-memory activity registry, the signup and
unregister handlers, the report generator and the CSV export.

The Python registry is a dict from activity name to a record; dicts
preserve insertion order and have unique keys, so the registry is
modelled as a list of `Activity` records carrying their name, looked up
by `List.find?` and mutated in place at the first (unique) matching
entry.  Handlers that raise `HTTPException` before touching state are
modelled as returning the unchanged registry together with an error
value.
-/

namespace MergingtonAPI

structure Activity where
  name : String
  description : String
  schedule : String
  max_participants : Nat
  participants : List String
deriving DecidableEq

abbrev Registry := List Activity

/-- Error taxonomy of the handlers, with the HTTP status each maps to. -/
inductive ApiError where
  | NotFound
  | AlreadyRegistered
  | NotRegistered
deriving DecidableEq

def ApiError.status : ApiError → Nat
  | .NotFound => 404
  | .AlreadyRegistered => 400
  | .NotRegistered => 400

/-- Dict lookup `activities[activity_name]` (with the `in` check):
the first — with unique keys, the only — entry of the given name. -/
def lookupActivity (reg : Registry) (name : String) : Option Activity :=
  reg.find? (fun a => a.name == name)

/-- In-place mutation of the entry `activities[activity_name]`:
rewrite the first entry of the given name with `f`, keep the rest. -/
def updateFirst (reg : Registry) (name : String) (f : Activity → Activity) : Registry :=
  match reg with
  | [] => []
  | a :: rest =>
      if a.name == name then f a :: rest else a :: updateFirst rest name f

/-- The hard-coded in-memory activity database seeded at process start
(`activities` in `src/app.py`). -/
def activities : Registry :=
  [ { name := "Chess Club",
      description := "Learn strategies and compete in chess tournaments",
      schedule := "Fridays, 3:30 PM - 5:00 PM",
      max_participants := 12,
      participants := ["michael@mergington.edu", "daniel@mergington.edu"] },
    { name := "Programming Class",
      description := "Learn programming fundamentals and build software projects",
      schedule := "Tuesdays and Thursdays, 3:30 PM - 4:30 PM",
      max_participants := 20,
      participants := ["emma@mergington.edu", "sophia@mergington.edu"] },
    { name := "Gym Class",
      description := "Physical education and sports activities",
      schedule := "Mondays, Wednesdays, Fridays, 2:00 PM - 3:00 PM",
      max_participants := 30,
      participants := ["john@mergington.edu", "olivia@mergington.edu"] },
    { name := "Soccer Team",
      description := "Join the school soccer team and compete in matches",
      schedule := "Tuesdays and Thursdays, 4:00 PM - 5:30 PM",
      max_participants := 22,
      participants := ["liam@mergington.edu", "noah@mergington.edu"] },
    { name := "Basketball Team",
      description := "Practice and play basketball with the school team",
      schedule := "Wednesdays and Fridays, 3:30 PM - 5:00 PM",
      max_participants := 15,
      participants := ["ava@mergington.edu", "mia@mergington.edu"] },
    { name := "Art Club",
      description := "Explore your creativity through painting and drawing",
      schedule := "Thursdays, 3:30 PM - 5:00 PM",
      max_participants := 15,
      participants := ["amelia@mergington.edu", "harper@mergington.edu"] },
    { name := "Drama Club",
      description := "Act, direct, and produce plays and performances",
      schedule := "Mondays and Wednesdays, 4:00 PM - 5:30 PM",
      max_participants := 20,
      participants := ["ella@mergington.edu", "scarlett@mergington.edu"] },
    { name := "Math Club",
      description := "Solve challenging problems and participate in math competitions",
      schedule := "Tuesdays, 3:30 PM - 4:30 PM",
      max_participants := 10,
      participants := ["james@mergington.edu", "benjamin@mergington.edu"] },
    { name := "Debate Team",
      description := "Develop public speaking and argumentation skills",
      schedule := "Fridays, 4:00 PM - 5:30 PM",
      max_participants := 12,
      participants := ["charlotte@mergington.edu", "henry@mergington.edu"] } ]

/-- The handler `signup_for_activity`: 404 if the activity name is
unknown, 400 if the email is already signed up, otherwise append the
email to the participants list (no capacity check appears anywhere)
and return the confirmation message. -/
def signup_for_activity (reg : Registry) (activity_name email : String) :
    Registry × Except ApiError String :=
  match lookupActivity reg activity_name with
  | none => (reg, Except.error ApiError.NotFound)
  | some activity =>
      if email ∈ activity.participants then
        (reg, Except.error ApiError.AlreadyRegistered)
      else
        (updateFirst reg activity_name
          (fun a => { a with participants := a.participants ++ [email] }),
         Except.ok ("Signed up " ++ email ++ " for " ++ activity_name))

/-- The handler `unregister_from_activity`: 404 if the activity name is
unknown, 400 if the email is not signed up, otherwise remove the first
(only) occurrence of the email (`list.remove`) and return the
confirmation message. -/
def unregister_from_activity (reg : Registry) (activity_name email : String) :
    Registry × Except ApiError String :=
  match lookupActivity reg activity_name with
  | none => (reg, Except.error ApiError.NotFound)
  | some activity =>
      if email ∈ activity.participants then
        (updateFirst reg activity_name
          (fun a => { a with participants := a.participants.erase email }),
         Except.ok ("Unregistered " ++ email ++ " from " ++ activity_name))
      else
        (reg, Except.error ApiError.NotRegistered)

structure ReportEntry where
  activity : String
  participants_count : Nat
  max_participants : Nat
  participants : List String
deriving DecidableEq

structure ReportSummary where
  total_activities : Nat
  total_participants : Nat
  unique_users : Nat
deriving DecidableEq

structure Report where
  summary : ReportSummary
  activities : List ReportEntry
deriving DecidableEq

/-- The handler `get_reports`: one entry per activity in registry order
plus global statistics; `unique_users` is the size of the set of all
emails occurring in any participants list (`set(...)` in the source,
modelled as `dedup` of the concatenation). -/
def get_reports (reg : Registry) : Report :=
  let report := reg.map (fun a =>
    { activity := a.name,
      participants_count := a.participants.length,
      max_participants := a.max_participants,
      participants := a.participants : ReportEntry })
  let total_activities := reg.length
  let total_participants := (reg.map (fun a => a.participants.length)).sum
  let unique_users := ((reg.map (fun a => a.participants)).flatten).dedup.length
  { summary :=
      { total_activities := total_activities,
        total_participants := total_participants,
        unique_users := unique_users },
    activities := report }

/-- Header row written by the CSV branch of `export_reports`. -/
def csvHeader : List String :=
  ["Activity", "Participants Count", "Max Participants", "Participants"]

/-- The CSV branch of `export_reports`, modelled at the level of rows of
fields handed to `csv.writer.writerow`: the header row, then one row
per report entry with the participants joined by a comma and space. -/
def export_reports_csv_rows (reg : Registry) : List (List String) :=
  let report := (get_reports reg).activities
  csvHeader :: report.map (fun r =>
    [r.activity, toString r.participants_count, toString r.max_participants,
     String.intercalate ", " r.participants])

/-- A client-visible mutating operation on the registry. -/
inductive Op where
  | signup (activity_name email : String)
  | unregister (activity_name email : String)

/-- Registry state after one handler call (errors leave it unchanged). -/
def applyOp (reg : Registry) : Op → Registry
  | .signup n e => (signup_for_activity reg n e).1
  | .unregister n e => (unregister_from_activity reg n e).1

def runOps (reg : Registry) (ops : List Op) : Registry :=
  ops.foldl applyOp reg

/-- Registry states reachable from the seeded database by handler calls. -/
def Reachable (reg : Registry) : Prop :=
  ∃ ops : List Op, reg = runOps activities ops

/-- Data-model invariant: no activity lists the same email twice. -/
def NoDupParticipants (reg : Registry) : Prop :=
  ∀ a ∈ reg, a.participants.Nodup

/-- Frame relation between a registry before and after a mutation on the
activity named `n`: same entries in the same order, every entry keeps
its name, description, schedule and capacity, and entries not named `n`
are entirely unchanged. -/
def FrameOK (reg reg' : Registry) (n : String) : Prop :=
  List.Forall₂ (fun a b =>
    b.name = a.name ∧ b.description = a.description ∧
    b.schedule = a.schedule ∧ b.max_participants = a.max_participants ∧
    (a.name ≠ n → b = a)) reg reg'

/-! ## Helper lemmas about `updateFirst` and `lookupActivity` -/

lemma lookupActivity_updateFirst (reg : Registry) (n : String) (f : Activity → Activity)
    (hf : ∀ a, (f a).name = a.name) :
    lookupActivity (updateFirst reg n f) n = (lookupActivity reg n).map f := by
  induction reg with
  | nil => rfl
  | cons a rest ih =>
    by_cases h : a.name = n
    · simp [lookupActivity, updateFirst, List.find?_cons, h, hf]
    · simpa [lookupActivity, updateFirst, List.find?_cons, h] using ih

lemma updateFirst_updateFirst (reg : Registry) (n : String) (f g : Activity → Activity)
    (hf : ∀ a, (f a).name = a.name) :
    updateFirst (updateFirst reg n f) n g = updateFirst reg n (fun a => g (f a)) := by
  induction reg with
  | nil => rfl
  | cons a rest ih =>
    by_cases h : a.name = n
    · simp [updateFirst, h, hf]
    · simp [updateFirst, h, ih]

lemma updateFirst_eq_of_fix (reg : Registry) (n : String) (f : Activity → Activity)
    (act : Activity) (hfind : lookupActivity reg n = some act) (hfix : f act = act) :
    updateFirst reg n f = reg := by
  induction reg with
  | nil => simp [lookupActivity] at hfind
  | cons a rest ih =>
    by_cases h : a.name = n
    · have ha : a = act := by
        simpa [lookupActivity, List.find?_cons, h] using hfind
      subst ha
      simp [updateFirst, h, hfix]
    · have hrest : lookupActivity rest n = some act := by
        simpa [lookupActivity, List.find?_cons, h] using hfind
      simp [updateFirst, h, ih hrest]

lemma mem_updateFirst_of_find (reg : Registry) (n : String) (f : Activity → Activity)
    (act b : Activity) (hfind : lookupActivity reg n = some act)
    (hb : b ∈ updateFirst reg n f) : b ∈ reg ∨ b = f act := by
  induction reg with
  | nil => simp [lookupActivity] at hfind
  | cons a rest ih =>
    by_cases h : a.name = n
    · have ha : a = act := by
        simpa [lookupActivity, List.find?_cons, h] using hfind
      rw [updateFirst, if_pos (by simp [h])] at hb
      rcases List.mem_cons.mp hb with hb | hb
      · exact Or.inr (ha ▸ hb)
      · exact Or.inl (List.mem_cons_of_mem a hb)
    · have hrest : lookupActivity rest n = some act := by
        simpa [lookupActivity, List.find?_cons, h] using hfind
      rw [updateFirst, if_neg (by simp [h])] at hb
      rcases List.mem_cons.mp hb with hb | hb
      · exact Or.inl (hb ▸ List.mem_cons_self a rest)
      · rcases ih hrest hb with hb | hb
        · exact Or.inl (List.mem_cons_of_mem a hb)
        · exact Or.inr hb

lemma act_mem_of_lookup (reg : Registry) (n : String) (act : Activity)
    (hfind : lookupActivity reg n = some act) : act ∈ reg :=
  List.mem_of_find?_eq_some hfind

/-! ## Claim theorems -/

/-- C1: whenever the activity name is present and the email is not yet a
participant, signup succeeds with the confirmation message and the
activity's participants list becomes the old list with the email
appended at the end.  No hypothesis on the list's length relative to
`max_participants` is needed: no capacity check is performed, so
signups beyond capacity are silently accepted. -/
theorem C1_signup_no_capacity_check (reg : Registry) (n e : String) (act : Activity)
    (hfind : lookupActivity reg n = some act) (hmem : e ∉ act.participants) :
    (signup_for_activity reg n e).2 = Except.ok ("Signed up " ++ e ++ " for " ++ n) ∧
    lookupActivity (signup_for_activity reg n e).1 n =
      some { act with participants := act.participants ++ [e] } := by
  simp only [signup_for_activity, hfind, if_neg hmem]
  refine ⟨trivial, ?_⟩
  rw [lookupActivity_updateFirst reg n
        (fun a => { a with participants := a.participants ++ [e] }) (fun a => rfl),
      hfind]
  rfl

/-- C1 witness: a concrete registry whose single activity already holds
two participants against a capacity of one still accepts a third
signup, appending it at the end. -/
theorem C1_signup_no_capacity_check_witness :
    lookupActivity
        [{ name := "Chess Club", description := "d", schedule := "s",
           max_participants := 1,
           participants := ["a@mergington.edu", "b@mergington.edu"] }] "Chess Club" =
      some { name := "Chess Club", description := "d", schedule := "s",
             max_participants := 1,
             participants := ["a@mergington.edu", "b@mergington.edu"] } ∧
    "c@mergington.edu" ∉ ["a@mergington.edu", "b@mergington.edu"] ∧
    ((signup_for_activity
        [{ name := "Chess Club", description := "d", schedule := "s",
           max_participants := 1,
           participants := ["a@mergington.edu", "b@mergington.edu"] }]
        "Chess Club" "c@mergington.edu").2 =
      Except.ok "Signed up c@mergington.edu for Chess Club" ∧
    lookupActivity
        (signup_for_activity
          [{ name := "Chess Club", description := "d", schedule := "s",
             max_participants := 1,
             participants := ["a@mergington.edu", "b@mergington.edu"] }]
          "Chess Club" "c@mergington.edu").1 "Chess Club" =
      some { name := "Chess Club", description := "d", schedule := "s",
             max_participants := 1,
             participants := ["a@mergington.edu", "b@mergington.edu",
                              "c@mergington.edu"] }) :=
  ⟨rfl, by decide,
    C1_signup_no_capacity_check
      [{ name := "Chess Club", description := "d", schedule := "s",
         max_participants := 1,
         participants := ["a@mergington.edu", "b@mergington.edu"] }]
      "Chess Club" "c@mergington.edu"
      { name := "Chess Club", description := "d", schedule := "s",
        max_participants := 1,
        participants := ["a@mergington.edu", "b@mergington.edu"] }
      rfl (by decide)⟩

/-- C3: signing up an email already in the activity's participants list
returns the `AlreadyRegistered` error, which maps to HTTP 400, and the
registry — in particular that activity's participants list — is
returned unchanged. -/
theorem C3_signup_already_registered (reg : Registry) (n e : String) (act : Activity)
    (hfind : lookupActivity reg n = some act) (hmem : e ∈ act.participants) :
    signup_for_activity reg n e = (reg, Except.error ApiError.AlreadyRegistered) ∧
    ApiError.AlreadyRegistered.status = 400 := by
  simp only [signup_for_activity, hfind, if_pos hmem]
  exact ⟨trivial, rfl⟩

/-- C3 witness: re-signing an existing Chess Club participant in the
seeded registry fails with `AlreadyRegistered` and leaves it unchanged. -/
theorem C3_signup_already_registered_witness :
    lookupActivity activities "Chess Club" =
      some { name := "Chess Club",
             description := "Learn strategies and compete in chess tournaments",
             schedule := "Fridays, 3:30 PM - 5:00 PM",
             max_participants := 12,
             participants := ["michael@mergington.edu", "daniel@mergington.edu"] } ∧
    "michael@mergington.edu" ∈ ["michael@mergington.edu", "daniel@mergington.edu"] ∧
    (signup_for_activity activities "Chess Club" "michael@mergington.edu" =
      (activities, Except.error ApiError.AlreadyRegistered) ∧
    ApiError.AlreadyRegistered.status = 400) :=
  ⟨rfl, by decide,
    C3_signup_already_registered activities "Chess Club" "michael@mergington.edu"
      { name := "Chess Club",
        description := "Learn strategies and compete in chess tournaments",
        schedule := "Fridays, 3:30 PM - 5:00 PM",
        max_participants := 12,
        participants := ["michael@mergington.edu", "daniel@mergington.edu"] }
      rfl (by decide)⟩

/-- C4: unregistering an email not in the activity's participants list
returns the `NotRegistered` error, which maps to HTTP 400, and the
registry — in particular that activity's participants list — is
returned unchanged. -/
theorem C4_unregister_not_registered (reg : Registry) (n e : String) (act : Activity)
    (hfind : lookupActivity reg n = some act) (hmem : e ∉ act.participants) :
    unregister_from_activity reg n e = (reg, Except.error ApiError.NotRegistered) ∧
    ApiError.NotRegistered.status = 400 := by
  simp only [unregister_from_activity, hfind, if_neg hmem]
  exact ⟨trivial, rfl⟩

/-- C4 witness: unregistering a non-member from Chess Club in the
seeded registry fails with `NotRegistered` and leaves it unchanged. -/
theorem C4_unregister_not_registered_witness :
    lookupActivity activities "Chess Club" =
      some { name := "Chess Club",
             description := "Learn strategies and compete in chess tournaments",
             schedule := "Fridays, 3:30 PM - 5:00 PM",
             max_participants := 12,
             participants := ["michael@mergington.edu", "daniel@mergington.edu"] } ∧
    "absent@mergington.edu" ∉ ["michael@mergington.edu", "daniel@mergington.edu"] ∧
    (unregister_from_activity activities "Chess Club" "absent@mergington.edu" =
      (activities, Except.error ApiError.NotRegistered) ∧
    ApiError.NotRegistered.status = 400) :=
  ⟨rfl, by decide,
    C4_unregister_not_registered activities "Chess Club" "absent@mergington.edu"
      { name := "Chess Club",
        description := "Learn strategies and compete in chess tournaments",
        schedule := "Fridays, 3:30 PM - 5:00 PM",
        max_participants := 12,
        participants := ["michael@mergington.edu", "daniel@mergington.edu"] }
      rfl (by decide)⟩

/-- C5: against an unknown activity name, both handlers return the
`NotFound` error, which maps to HTTP 404, and return the registry
unchanged, regardless of the email value. -/
theorem C5_unknown_activity_not_found (reg : Registry) (n e : String)
    (hfind : lookupActivity reg n = none) :
    signup_for_activity reg n e = (reg, Except.error ApiError.NotFound) ∧
    unregister_from_activity reg n e = (reg, Except.error ApiError.NotFound) ∧
    ApiError.NotFound.status = 404 := by
  unfold signup_for_activity unregister_from_activity
  rw [hfind]
  exact ⟨rfl, rfl, rfl⟩

/-- C5 witness: a name absent from the seeded registry yields `NotFound`
from both handlers. -/
theorem C5_unknown_activity_not_found_witness :
    lookupActivity activities "Knitting Club" = none ∧
    (signup_for_activity activities "Knitting Club" "x@mergington.edu" =
      (activities, Except.error ApiError.NotFound) ∧
    unregister_from_activity activities "Knitting Club" "x@mergington.edu" =
      (activities, Except.error ApiError.NotFound) ∧
    ApiError.NotFound.status = 404) :=
  ⟨rfl, C5_unknown_activity_not_found _ _ _ rfl⟩

/-- C2: signing up a fresh email and then unregistering the same email
on the same activity restores the registry — in particular that
activity's participants list — to exactly its prior value. -/
theorem C2_signup_unregister_roundtrip (reg : Registry) (n e : String) (act : Activity)
    (hfind : lookupActivity reg n = some act) (hmem : e ∉ act.participants) :
    (unregister_from_activity (signup_for_activity reg n e).1 n e).1 = reg := by
  have hname : ∀ a : Activity,
      (({ a with participants := a.participants ++ [e] } : Activity)).name = a.name :=
    fun a => rfl
  have hs : (signup_for_activity reg n e).1 =
      updateFirst reg n (fun a => { a with participants := a.participants ++ [e] }) := by
    simp only [signup_for_activity, hfind, if_neg hmem]
  rw [hs]
  have hlook :
      lookupActivity
        (updateFirst reg n (fun a => { a with participants := a.participants ++ [e] })) n =
      some { act with participants := act.participants ++ [e] } := by
    rw [lookupActivity_updateFirst reg n
          (fun a => { a with participants := a.participants ++ [e] }) hname, hfind]
    rfl
  have hmem2 :
      e ∈ ({ act with participants := act.participants ++ [e] } : Activity).participants := by
    simp
  simp only [unregister_from_activity, hlook, if_pos hmem2]
  rw [updateFirst_updateFirst reg n
        (fun a => { a with participants := a.participants ++ [e] })
        (fun a => { a with participants := a.participants.erase e }) hname]
  apply updateFirst_eq_of_fix reg n _ act hfind
  have herase : (act.participants ++ [e]).erase e = act.participants := by
    rw [List.erase_append_right _ hmem]
    simp
  simp [herase]

/-- C2 witness: signing up a new email for Chess Club in the seeded
registry and then unregistering it restores the seeded registry. -/
theorem C2_signup_unregister_roundtrip_witness :
    lookupActivity activities "Chess Club" =
      some { name := "Chess Club",
             description := "Learn strategies and compete in chess tournaments",
             schedule := "Fridays, 3:30 PM - 5:00 PM",
             max_participants := 12,
             participants := ["michael@mergington.edu", "daniel@mergington.edu"] } ∧
    "new@mergington.edu" ∉ ["michael@mergington.edu", "daniel@mergington.edu"] ∧
    (unregister_from_activity
        (signup_for_activity activities "Chess Club" "new@mergington.edu").1
        "Chess Club" "new@mergington.edu").1 = activities :=
  ⟨rfl, by decide,
    C2_signup_unregister_roundtrip activities "Chess Club" "new@mergington.edu"
      { name := "Chess Club",
        description := "Learn strategies and compete in chess tournaments",
        schedule := "Fridays, 3:30 PM - 5:00 PM",
        max_participants := 12,
        participants := ["michael@mergington.edu", "daniel@mergington.edu"] }
      rfl (by decide)⟩

/-- C6: the report's `total_participants` equals the sum of the
`participants_count` fields over the report's activities list, and each
entry's `participants_count` is the length of its participants list. -/
theorem C6_total_participants_eq_sum (reg : Registry) :
    (get_reports reg).summary.total_participants =
      ((get_reports reg).activities.map (fun r => r.participants_count)).sum ∧
    ∀ r ∈ (get_reports reg).activities, r.participants_count = r.participants.length := by
  constructor
  · simp [get_reports, List.map_map, Function.comp_def]
  · intro r hr
    simp only [get_reports, List.mem_map] at hr
    obtain ⟨a, _, rfl⟩ := hr
    rfl

/-- C9: the CSV export is the header row
`Activity, Participants Count, Max Participants, Participants` followed
by exactly one row per activity in registry order, whose last field is
the activity's participants joined by a comma and a space; in
particular it has one more row than the registry has activities. -/
theorem C9_csv_rows (reg : Registry) :
    export_reports_csv_rows reg =
      csvHeader :: reg.map (fun a =>
        [a.name, toString a.participants.length, toString a.max_participants,
         String.intercalate ", " a.participants]) ∧
    (export_reports_csv_rows reg).length = reg.length + 1 := by
  constructor
  · simp [export_reports_csv_rows, get_reports, List.map_map, Function.comp]
  · simp [export_reports_csv_rows, get_reports]

lemma frameOK_updateFirst (reg : Registry) (n : String) (f : Activity → Activity)
    (hf : ∀ a, (f a).name = a.name ∧ (f a).description = a.description ∧
      (f a).schedule = a.schedule ∧ (f a).max_participants = a.max_participants) :
    FrameOK reg (updateFirst reg n f) n := by
  induction reg with
  | nil => exact List.Forall₂.nil
  | cons a rest ih =>
    by_cases h : a.name = n
    · rw [updateFirst, if_pos (by simp [h])]
      refine List.Forall₂.cons ?_ ?_
      · exact ⟨(hf a).1, (hf a).2.1, (hf a).2.2.1, (hf a).2.2.2, fun hne => absurd h hne⟩
      · exact List.forall₂_same.mpr (fun b _ => ⟨rfl, rfl, rfl, rfl, fun _ => rfl⟩)
    · rw [updateFirst, if_neg (by simp [h])]
      exact List.Forall₂.cons ⟨rfl, rfl, rfl, rfl, fun _ => rfl⟩ ih

/-- C10: every successful signup or unregister on an activity named `n`
keeps every registry entry in place with its name, description,
schedule and capacity intact, and leaves every activity not named `n`
entirely unchanged — only the target's participants list can change. -/
theorem C10_success_frame (reg : Registry) (n : String) :
    (∀ e m, (signup_for_activity reg n e).2 = Except.ok m →
      FrameOK reg (signup_for_activity reg n e).1 n) ∧
    (∀ e m, (unregister_from_activity reg n e).2 = Except.ok m →
      FrameOK reg (unregister_from_activity reg n e).1 n) := by
  constructor
  · intro e m hok
    cases hfind : lookupActivity reg n with
    | none => simp [signup_for_activity, hfind] at hok
    | some act =>
      by_cases hmem : e ∈ act.participants
      · simp [signup_for_activity, hfind, if_pos hmem] at hok
      · simp only [signup_for_activity, hfind, if_neg hmem]
        exact frameOK_updateFirst reg n _ (fun a => ⟨rfl, rfl, rfl, rfl⟩)
  · intro e m hok
    cases hfind : lookupActivity reg n with
    | none => simp [unregister_from_activity, hfind] at hok
    | some act =>
      by_cases hmem : e ∈ act.participants
      · simp only [unregister_from_activity, hfind, if_pos hmem]
        exact frameOK_updateFirst reg n _ (fun a => ⟨rfl, rfl, rfl, rfl⟩)
      · simp [unregister_from_activity, hfind, if_neg hmem] at hok

/-- C10 witness: a successful signup and a successful unregister on the
seeded registry's Chess Club both satisfy the frame relation. -/
theorem C10_success_frame_witness :
    (signup_for_activity activities "Chess Club" "new@mergington.edu").2 =
      Except.ok "Signed up new@mergington.edu for Chess Club" ∧
    FrameOK activities
      (signup_for_activity activities "Chess Club" "new@mergington.edu").1 "Chess Club" ∧
    (unregister_from_activity activities "Chess Club" "michael@mergington.edu").2 =
      Except.ok "Unregistered michael@mergington.edu from Chess Club" ∧
    FrameOK activities
      (unregister_from_activity activities "Chess Club" "michael@mergington.edu").1
      "Chess Club" :=
  ⟨rfl,
   (C10_success_frame activities "Chess Club").1 "new@mergington.edu"
     "Signed up new@mergington.edu for Chess Club" rfl,
   rfl,
   (C10_success_frame activities "Chess Club").2 "michael@mergington.edu"
     "Unregistered michael@mergington.edu from Chess Club" rfl⟩

/-- C7: under the data-model invariant that no single activity lists an
email twice, the report's `unique_users` is at most
`total_participants`, with equality exactly when no email occurs in the
participants lists of two different activities. -/
theorem C7_unique_users_le_total (reg : Registry)
    (h : ∀ a ∈ reg, a.participants.Nodup) :
    (get_reports reg).summary.unique_users ≤
      (get_reports reg).summary.total_participants ∧
    ((get_reports reg).summary.unique_users =
        (get_reports reg).summary.total_participants ↔
      (reg.map (fun a => a.participants)).Pairwise (fun l₁ l₂ => ∀ x ∈ l₁, x ∉ l₂)) := by
  have htot : (get_reports reg).summary.total_participants =
      ((reg.map (fun a => a.participants)).flatten).length := by
    simp [get_reports, List.length_flatten, List.map_map, Function.comp_def]
  have huniq : (get_reports reg).summary.unique_users =
      ((reg.map (fun a => a.participants)).flatten).dedup.length := rfl
  have hnd : ∀ l ∈ reg.map (fun a => a.participants), l.Nodup := by
    intro l hl
    obtain ⟨a, ha, rfl⟩ := List.mem_map.mp hl
    exact h a ha
  rw [htot, huniq]
  refine ⟨(List.dedup_sublist _).length_le, ?_, ?_⟩
  · intro heq
    have hflat : ((reg.map (fun a => a.participants)).flatten).Nodup :=
      List.dedup_eq_self.mp ((List.dedup_sublist _).eq_of_length heq)
    refine ((List.nodup_flatten.mp hflat).2).imp ?_
    intro l₁ l₂ hd x hx hxb
    exact hd hx hxb
  · intro hpw
    have hpw' : (reg.map (fun a => a.participants)).Pairwise List.Disjoint := by
      refine hpw.imp ?_
      intro l₁ l₂ hd x hx hxb
      exact hd x hx hxb
    have hflat : ((reg.map (fun a => a.participants)).flatten).Nodup :=
      List.nodup_flatten.mpr ⟨hnd, hpw'⟩
    rw [hflat.dedup]

/-- C7 witness: in the seeded registry every activity's two emails are
distinct, all eighteen emails are pairwise distinct across activities,
and indeed `unique_users = total_participants = 18`. -/
theorem C7_unique_users_le_total_witness :
    (∀ a ∈ activities, a.participants.Nodup) ∧
    ((get_reports activities).summary.unique_users ≤
        (get_reports activities).summary.total_participants ∧
      ((get_reports activities).summary.unique_users =
          (get_reports activities).summary.total_participants ↔
        (activities.map (fun a => a.participants)).Pairwise
          (fun l₁ l₂ => ∀ x ∈ l₁, x ∉ l₂))) :=
  ⟨by decide, C7_unique_users_le_total activities (by decide)⟩

lemma applyOp_preserves_nodup (reg : Registry) (op : Op)
    (h : ∀ a ∈ reg, a.participants.Nodup) :
    ∀ a ∈ applyOp reg op, a.participants.Nodup := by
  cases op with
  | signup n e =>
    cases hfind : lookupActivity reg n with
    | none => simpa [applyOp, signup_for_activity, hfind] using h
    | some act =>
      by_cases hmem : e ∈ act.participants
      · simpa [applyOp, signup_for_activity, hfind, if_pos hmem] using h
      · simp only [applyOp, signup_for_activity, hfind, if_neg hmem]
        intro b hb
        rcases mem_updateFirst_of_find reg n
            (fun a => { a with participants := a.participants ++ [e] }) act b hfind hb with
          hb | hb
        · exact h b hb
        · subst hb
          have hact := h act (act_mem_of_lookup reg n act hfind)
          simp [List.nodup_append, hact, hmem]
  | unregister n e =>
    cases hfind : lookupActivity reg n with
    | none => simpa [applyOp, unregister_from_activity, hfind] using h
    | some act =>
      by_cases hmem : e ∈ act.participants
      · simp only [applyOp, unregister_from_activity, hfind, if_pos hmem]
        intro b hb
        rcases mem_updateFirst_of_find reg n
            (fun a => { a with participants := a.participants.erase e }) act b hfind hb with
          hb | hb
        · exact h b hb
        · subst hb
          exact (h act (act_mem_of_lookup reg n act hfind)).erase e
      · simpa [applyOp, unregister_from_activity, hfind, if_neg hmem] using h

lemma runOps_preserves_nodup (ops : List Op) (reg : Registry)
    (h : ∀ a ∈ reg, a.participants.Nodup) :
    ∀ a ∈ runOps reg ops, a.participants.Nodup := by
  induction ops generalizing reg with
  | nil => exact h
  | cons op ops ih => exact ih (applyOp reg op) (applyOp_preserves_nodup reg op h)

lemma activities_nodup : ∀ a ∈ activities, a.participants.Nodup := by decide

/-- C8: every registry state reachable from the seeded database by any
sequence of signup and unregister calls satisfies the no-duplicates
invariant: no activity lists the same email twice. -/
theorem C8_reachable_no_duplicates (reg : Registry) (h : Reachable reg) :
    NoDupParticipants reg := by
  obtain ⟨ops, rfl⟩ := h
  exact runOps_preserves_nodup ops activities activities_nodup

/-- C8 witness: the state reached by one successful signup is reachable
and satisfies the invariant. -/
theorem C8_reachable_no_duplicates_witness :
    Reachable (runOps activities [Op.signup "Chess Club" "new@mergington.edu"]) ∧
    NoDupParticipants (runOps activities [Op.signup "Chess Club" "new@mergington.edu"]) :=
  ⟨⟨[Op.signup "Chess Club" "new@mergington.edu"], rfl⟩,
   C8_reachable_no_duplicates
     (runOps activities [Op.signup "Chess Club" "new@mergington.edu"])
     ⟨[Op.signup "Chess Club" "new@mergington.edu"], rfl⟩⟩

end MergingtonAPI
